import Mathlib

/-!
Shallow embedding of the target-resolution and process-launch engine of the
`papa_shortcut` launcher (source: `electron/main.ts`).  Pure string and path
helpers model the JavaScript / Node primitives the engine calls; the engine
itself (`normalizeArgs`, `isBareCommandTarget`, `resolveWindowsCommandPath`,
`openPathTarget`, `spawnProcess`, `isWindowsProcessImageRunning`,
`verifyProcessLaunch`, `launchItem`) is translated statement by statement from
the TypeScript.  OS state (filesystem snapshot, outcome of each OS primitive)
is an explicit `Env` record, and every OS call the engine makes is recorded in
a trace of `Event` values so that "calls spawn", "never touches the
filesystem" and similar claims are statable.
-/

namespace PapaShortcut

/-- The whitespace class used by JavaScript `String.prototype.trim` and by
`\s` in the tokenizer regex, restricted to the code points the launcher can
meet in practice (ASCII whitespace, NBSP, BOM). -/
def jsWhitespaceChar (c : Char) : Bool :=
  c = ' ' || c = '\t' || c = '\n' || c = '\r' || c = '\x0b' || c = '\x0c' ||
  c = '\u00a0' || c = '\ufeff'

/-- JavaScript `String.prototype.trim` on the char-list view. -/
def jsTrimChars (l : List Char) : List Char :=
  ((l.dropWhile jsWhitespaceChar).reverse.dropWhile jsWhitespaceChar).reverse

/-- JavaScript `String.prototype.trim`. -/
def jsTrim (s : String) : String :=
  ⟨jsTrimChars s.data⟩

/-- JavaScript `String.prototype.toLowerCase`, for the ASCII range (the only
case-folding the engine relies on: URL schemes, file extensions, the
WindowsApps marker, tasklist output). -/
def strLower (s : String) : String :=
  ⟨s.data.map Char.toLower⟩

/-- JavaScript `String.prototype.includes` on char lists. -/
def listContainsSub (needle : List Char) : List Char → Bool
  | [] => needle.isEmpty
  | c :: rest => needle.isPrefixOf (c :: rest) || listContainsSub needle rest

/-- JavaScript `hay.includes(needle)`. -/
def containsSub (hay needle : String) : Bool :=
  listContainsSub needle.data hay.data

/-- JavaScript `String.prototype.split(/\r?\n/)`: a separator is a newline
optionally preceded by a carriage return; a lone carriage return is kept. -/
def splitCrLfLines : List Char → List (List Char)
  | [] => [[]]
  | '\r' :: '\n' :: rest => [] :: splitCrLfLines rest
  | '\n' :: rest => [] :: splitCrLfLines rest
  | c :: rest =>
    match splitCrLfLines rest with
    | [] => [[c]]
    | l :: ls => (c :: l) :: ls

/-- Separator test of `node:path`: backslash is a separator only in the
win32 flavour of the module. -/
def isPathSeparator (win32 : Bool) (c : Char) : Bool :=
  c = '/' || (win32 && c = '\\')

/-- `path.isAbsolute` of `node:path` (the flavour matching the host
platform): a drive-letter form such as `C:\` or a leading separator. -/
def pathIsAbsolute (win32 : Bool) (s : String) : Bool :=
  match s.data with
  | [] => false
  | c :: rest =>
    if win32 then
      isPathSeparator true c ||
        (c.isAlpha && (match rest with
          | ':' :: d :: _ => d = '/' || d = '\\'
          | _ => false))
    else
      c = '/'

/-- Char-list view of `path.basename`: the component after the last
separator, ignoring trailing separators. -/
def basenameChars (win32 : Bool) (l : List Char) : List Char :=
  let core := (l.reverse.dropWhile (isPathSeparator win32)).reverse
  (core.reverse.takeWhile (fun c => !isPathSeparator win32 c)).reverse

/-- `path.basename` of `node:path`. -/
def pathBasename (win32 : Bool) (s : String) : String :=
  ⟨basenameChars win32 s.data⟩

/-- `path.extname` of `node:path`: the suffix of the basename from its last
dot, empty when the basename has no dot or starts with its only dot. -/
def pathExtname (win32 : Bool) (s : String) : String :=
  let base := basenameChars win32 s.data
  let afterLastDot := base.reverse.takeWhile (fun c => c ≠ '.')
  if afterLastDot.length + 1 ≤ base.length then
    -- a dot exists; it must not be the leading character of the basename
    if afterLastDot.length + 1 = base.length then ""
    else ⟨'.' :: afterLastDot.reverse⟩
  else ""

/-- `path.dirname` of `node:path`: everything before the last separator
(ignoring trailing separators), `"."` when there is no separator.  The engine
only passes this value on as a spawn working directory, never inspects it. -/
def pathDirname (win32 : Bool) (s : String) : String :=
  let core := (s.data.reverse.dropWhile (isPathSeparator win32)).reverse
  let tail := core.reverse.takeWhile (fun c => !isPathSeparator win32 c)
  if tail.length = core.length then "."
  else
    let withSep := core.take (core.length - tail.length)
    let stripped := (withSep.reverse.dropWhile (isPathSeparator win32)).reverse
    if stripped.isEmpty then ⟨withSep⟩ else ⟨stripped⟩

/-! ## Data model (`src/shared/types.ts`) -/

/-- Result of one launch: `LaunchResult` of `src/shared/types.ts`.  The error
code is kept as a string exactly as in the TypeScript union, so that the
engine-side restriction to the three launch failure kinds is a theorem, not a
typing artifact. -/
inductive LaunchResult where
  | ok (message : String)
  | err (code : String) (message : String) (details : Option String)
  deriving Repr, DecidableEq

/-- The `args` field of a `LauncherItem`: `string | string[]`, or absent. -/
inductive LauncherArgs where
  | ofList (tokens : List String)
  | ofString (raw : String)
  | missing
  deriving Repr, DecidableEq

/-- `LauncherItem` of `src/shared/types.ts`, restricted to the fields the
launch engine reads (`icon` and `keywords` are presentation data). -/
structure LauncherItem where
  id : String
  name : String
  categoryId : String
  target : String
  args : LauncherArgs
  workingDir : Option String
  deriving Repr, DecidableEq

/-- Result of `fs.statSync` on an existing path. -/
structure FileStat where
  isDirectory : Bool
  isFile : Bool
  deriving Repr, DecidableEq

/-- `NodeJS.ErrnoException` as the spawn path reads it: an optional `code`
(for example ENOENT, EACCES, EPERM) and the `message` used by
`formatUnknownError`. -/
structure ErrnoException where
  code : Option String
  message : String
  deriving Repr, DecidableEq

/-- One OS call made by the engine during a launch, recorded in order. -/
inductive Event where
  | existsCheck (p : String)
  | statCheck (p : String)
  | urlOpen (u : String)
  | pathOpen (p : String)
  | spawnCall (exe : String) (args : List String) (cwd : String) (useShell : Bool)
  | whereQuery (command : String)
  | tasklistQuery (image : String)
  deriving Repr, DecidableEq

/-- The OS state a launch runs against: one consistent filesystem snapshot
plus the outcome of every OS primitive the engine may call.  `tasklist` gets
the poll attempt index as an argument because the verifier reads the live
process list repeatedly and may see it change between polls. -/
structure Env where
  platformWin32 : Bool
  cwd : String
  fsys : String → Option FileStat
  whereStatus : String → Option Int
  whereStdout : String → String
  openExternal : String → Except String Unit
  openPath : String → String
  spawnOutcome : String → List String → String → Bool → Except ErrnoException Unit
  tasklistStatus : String → Nat → Option Int
  tasklistStdout : String → Nat → String

/-- `fs.existsSync` over the snapshot. -/
def Env.existsSync (env : Env) (p : String) : Bool :=
  (env.fsys p).isSome

/-! ## Argument Tokenizer (`normalizeArgs`, `electron/main.ts`) -/

/-- All matches of the global regex `[^\s"]+|"[^"]*"` in left-to-right order,
as `String.prototype.match` with the `g` flag produces them: at each position
try a maximal run of non-whitespace non-quote characters, else a quoted run
with a closing quote; when neither alternative matches, advance one
character.
The scan consumes at least one character per step, so it is written with a
fuel argument bounded below by the input length (making it structurally
recursive and kernel-computable); the zero-fuel case is unreachable from
`matchTokens`, and `matchTokens_cons` below restates the natural
recursion. -/
def matchTokensAux : Nat → List Char → List (List Char)
  | _, [] => []
  | 0, _ :: _ => []
  | fuel + 1, c :: rest =>
    if jsWhitespaceChar c then matchTokensAux fuel rest
    else if c = '"' then
      let inner := rest.takeWhile (fun ch => ch ≠ '"')
      if inner.length < rest.length then
        ('"' :: inner ++ ['"']) :: matchTokensAux fuel (rest.drop (inner.length + 1))
      else matchTokensAux fuel rest
    else
      (c :: rest.takeWhile (fun ch => !jsWhitespaceChar ch && ch ≠ '"')) ::
        matchTokensAux fuel (rest.dropWhile (fun ch => !jsWhitespaceChar ch && ch ≠ '"'))

/-- The token scan, run with exactly enough fuel. -/
def matchTokens (l : List Char) : List (List Char) :=
  matchTokensAux l.length l

/-- The dot of the replacement regex `^"(.*)"$` matches any character except
a line terminator. -/
def jsDotMatches (c : Char) : Bool :=
  !(c = '\n' || c = '\r' || c = '\u2028' || c = '\u2029')

/-- `token.replace(/^"(.*)"$/, "$1")`: strip one surrounding pair of double
quotes when the whole token matches the anchored pattern. -/
def stripSurroundingQuotes (tok : List Char) : List Char :=
  if 2 ≤ tok.length ∧ tok.take 1 = ['"'] ∧ tok.drop (tok.length - 1) = ['"'] ∧
      ((tok.drop 1).take (tok.length - 2)).all jsDotMatches then
    (tok.drop 1).take (tok.length - 2)
  else tok

/-- `normalizeArgs` of `electron/main.ts`. -/
def normalizeArgs : LauncherArgs → List String
  | .ofList tokens => tokens
  | .ofString raw =>
    let trimmed := jsTrim raw
    if trimmed = "" then []
    else
      match matchTokens trimmed.data with
      | [] => []
      | toks => toks.map (fun tok => (⟨stripSurroundingQuotes tok⟩ : String))
  | .missing => []

/-! ## Target Classifier and Command Resolver (`electron/main.ts`) -/

/-- `EXECUTABLE_EXTENSIONS` of `electron/main.ts` (a `Set` in the source;
only membership is ever used). -/
def EXECUTABLE_EXTENSIONS : List String :=
  [".exe", ".bat", ".cmd", ".com"]

/-- `isBareCommandTarget` of `electron/main.ts`. -/
def isBareCommandTarget (value : String) : Bool :=
  if value = "" then false
  else if containsSub value "\\" || containsSub value "/" then false
  else true

/-- The `/^https?:\/\//i` test at the top of `launchItem`. -/
def isHttpUrlTarget (target : String) : Bool :=
  "http://".data.isPrefixOf (strLower target).data ||
  "https://".data.isPrefixOf (strLower target).data

/-- The trimmed output lines of `where.exe` as `resolveWindowsCommandPath`
computes them: `result.stdout.split(/\r?\n/).map(trim)`. -/
def whereLines (env : Env) (command : String) : List String :=
  (splitCrLfLines (env.whereStdout command).data).map (fun l => (⟨jsTrimChars l⟩ : String))

/-- The candidate filter of `resolveWindowsCommandPath`:
`.filter((line) => line.length > 0 && fs.existsSync(line))`. -/
def whereCandidates (env : Env) (command : String) : List String :=
  (whereLines env command).filter (fun line => !line.isEmpty && env.existsSync line)

/-- The WindowsApps test of `resolveWindowsCommandPath`:
`candidate.toLowerCase().includes("\\windowsapps\\")`. -/
def isWindowsAppsPath (candidate : String) : Bool :=
  containsSub (strLower candidate) "\\windowsapps\\"

/-- `resolveWindowsCommandPath` of `electron/main.ts`, paired with the OS
calls it makes (one `where.exe` query, then one existence check per
nonempty output line). -/
def resolveWindowsCommandPath (env : Env) (command : String) :
    Option String × List Event :=
  if !env.platformWin32 || !isBareCommandTarget command then (none, [])
  else
    let queryTrace := [Event.whereQuery command]
    if env.whereStatus command ≠ some 0 ∨ env.whereStdout command = "" then
      (none, queryTrace)
    else
      let checkTrace :=
        ((whereLines env command).filter (fun line => !line.isEmpty)).map Event.existsCheck
      match whereCandidates env command with
      | [] => (none, queryTrace ++ checkTrace)
      | c :: cs =>
        (some ((((c :: cs).find? (fun cand => !isWindowsAppsPath cand))).getD c),
         queryTrace ++ checkTrace)

/-! ## Launch Dispatcher (`electron/main.ts`) -/

/-- `launchError` of `electron/main.ts`. -/
def launchError (code message : String) (details : Option String) : LaunchResult :=
  .err code message details

/-- `openPathTarget` of `electron/main.ts`: one `shell.openPath` call; a
nonempty result string is the error message of a failed open. -/
def openPathTarget (env : Env) (targetPath itemName : String) :
    LaunchResult × List Event :=
  let openResult := env.openPath targetPath
  if openResult ≠ "" then
    (launchError "TARGET_LAUNCH_FAILED" ("Failed to open path for \x27" ++ itemName ++ "\x27.") (some openResult),
     [Event.pathOpen targetPath])
  else
    (.ok ("Opened: " ++ itemName), [Event.pathOpen targetPath])

/-- `spawnProcess` of `electron/main.ts`.  A spawn attempt either reaches the
`spawn` handshake (`.ok`) or rejects with an `ErrnoException`; the log-only
`appendLog` call has no observable effect and is omitted. -/
def spawnProcess (env : Env) (executable : String) (args : List String)
    (cwd itemName : String) : LaunchResult × List Event :=
  let isBareCommand :=
    !containsSub executable "\\" && !containsSub executable "/" && !executable.isEmpty
  match env.spawnOutcome executable args cwd false with
  | .ok _ => (.ok ("Launched: " ++ itemName), [Event.spawnCall executable args cwd false])
  | .error launchFailure =>
    if launchFailure.code = some "ENOENT" ∧ isBareCommand = true then
      match env.spawnOutcome executable args cwd true with
      | .ok _ =>
        (.ok ("Launched: " ++ itemName),
         [Event.spawnCall executable args cwd false, Event.spawnCall executable args cwd true])
      | .error fallbackError =>
        (launchError "TARGET_LAUNCH_FAILED" ("Failed to launch \x27" ++ itemName ++ "\x27.")
          (some fallbackError.message),
         [Event.spawnCall executable args cwd false, Event.spawnCall executable args cwd true])
    else if launchFailure.code = some "EACCES" ∨ launchFailure.code = some "EPERM" then
      (launchError "TARGET_PERMISSION_DENIED" ("Permission denied while launching \x27" ++ itemName ++ "\x27.")
        (some launchFailure.message),
       [Event.spawnCall executable args cwd false])
    else
      (launchError "TARGET_LAUNCH_FAILED" ("Failed to launch \x27" ++ itemName ++ "\x27.")
        (some launchFailure.message),
       [Event.spawnCall executable args cwd false])

/-! ## Launch Verifier (`electron/main.ts`) -/

/-- `isWindowsProcessImageRunning` of `electron/main.ts`.  The `attempt`
index selects which snapshot of the live process list this particular
`tasklist` invocation observes. -/
def isWindowsProcessImageRunning (env : Env) (imageName : String) (attempt : Nat) :
    Bool × List Event :=
  if !env.platformWin32 then (true, [])
  else
    let queryTrace := [Event.tasklistQuery imageName]
    if env.tasklistStatus imageName attempt ≠ some 0 ∨ env.tasklistStdout imageName attempt = "" then
      (false, queryTrace)
    else
      let output := strLower (jsTrim (env.tasklistStdout imageName attempt))
      if output = "" then (false, queryTrace)
      else (!containsSub output "no tasks are running", queryTrace)

/-- The polling loop of `verifyProcessLaunch`: try the process-list check at
the attempt indices `first, first+1, ...` as long as fuel remains. -/
def verifyAttempts (env : Env) (imageName : String) :
    Nat → Nat → Bool × List Event
  | _, 0 => (false, [])
  | attempt, fuel + 1 =>
    let step := isWindowsProcessImageRunning env imageName attempt
    if step.1 then (true, step.2)
    else
      let rest := verifyAttempts env imageName (attempt + 1) fuel
      (rest.1, step.2 ++ rest.2)

/-- `verifyProcessLaunch` of `electron/main.ts`: at most 6 polls of the
process list (the 150 ms sleeps between polls have no observable effect in
this model). -/
def verifyProcessLaunch (env : Env) (imageName : String) : Bool × List Event :=
  if !env.platformWin32 then (true, [])
  else verifyAttempts env imageName 0 6

/-! ## `launchItem` (`electron/main.ts`) -/

/-- The `absoluteTarget` expression of `launchItem`:
`path.isAbsolute(target) ? target : resolvedCommandPath &&
path.isAbsolute(resolvedCommandPath) ? resolvedCommandPath : null`
(an empty resolved path is never produced, so JS truthiness of
`resolvedCommandPath` coincides with the `match`). -/
def computeAbsoluteTarget (env : Env) (target : String) : Option String :=
  if pathIsAbsolute env.platformWin32 target then some target
  else
    match (resolveWindowsCommandPath env target).1 with
    | some resolvedCommandPath =>
      if pathIsAbsolute env.platformWin32 resolvedCommandPath then some resolvedCommandPath
      else none
    | none => none

/-- `item.workingDir?.trim()`. -/
def workingDirCandidate (item : LauncherItem) : Option String :=
  item.workingDir.map jsTrim

/-- JS truthiness of `workingDirCandidate && workingDirCandidate.length > 0`
(an empty string is falsy, so the two conjuncts coincide). -/
def workingDirCandidateTruthy (item : LauncherItem) : Bool :=
  match workingDirCandidate item with
  | some w => !w.isEmpty
  | none => false

/-- The `workingDir` expression of `launchItem`: the trimmed explicit
working directory when nonempty, else the directory of the resolved target,
else `process.cwd()`. -/
def effectiveWorkingDir (env : Env) (item : LauncherItem) (absoluteTarget : Option String) :
    String :=
  if workingDirCandidateTruthy item then (workingDirCandidate item).getD ""
  else
    match absoluteTarget with
    | some p => pathDirname env.platformWin32 p
    | none => env.cwd

/-- The tail of `launchItem` from the working-directory block on: the guard
on an explicit working directory, the verified no-argument executable
branch, and the final generic spawn. -/
def launchTail (env : Env) (item : LauncherItem) (target : String) (args : List String)
    (absoluteTarget executableNoArgsAbsoluteTarget : Option String) :
    LaunchResult × List Event :=
  let workingDir := effectiveWorkingDir env item absoluteTarget
  let wdTrace :=
    if workingDirCandidateTruthy item then [Event.existsCheck workingDir] else []
  if workingDirCandidateTruthy item ∧ ¬ env.existsSync workingDir then
    (launchError "TARGET_NOT_FOUND" ("Working directory not found for \x27" ++ item.name ++ "\x27.")
      (some workingDir), wdTrace)
  else
    match executableNoArgsAbsoluteTarget with
    | some exePath =>
      let spawned := spawnProcess env exePath [] workingDir item.name
      match spawned.1 with
      | .err c m d => (.err c m d, wdTrace ++ spawned.2)
      | .ok okMessage =>
        let imageName := pathBasename env.platformWin32 exePath
        let verified := verifyProcessLaunch env imageName
        if verified.1 then (.ok okMessage, wdTrace ++ spawned.2 ++ verified.2)
        else
          let fallback := openPathTarget env exePath item.name
          (fallback.1, wdTrace ++ spawned.2 ++ verified.2 ++ fallback.2)
    | none =>
      let launchTarget := absoluteTarget.getD target
      let spawned := spawnProcess env launchTarget args workingDir item.name
      (spawned.1, wdTrace ++ spawned.2)

/-- `launchItem` of `electron/main.ts`, paired with the ordered trace of the
OS calls it performs. -/
def launchItem (env : Env) (item : LauncherItem) : LaunchResult × List Event :=
  let target := jsTrim item.target
  let args := normalizeArgs item.args
  if isHttpUrlTarget target then
    match env.openExternal target with
    | .error e =>
      (launchError "TARGET_LAUNCH_FAILED" ("Failed to open URL for \x27" ++ item.name ++ "\x27.") (some e),
       [Event.urlOpen target])
    | .ok _ => (.ok ("Opened URL: " ++ item.name), [Event.urlOpen target])
  else
    let resolved := resolveWindowsCommandPath env target
    match computeAbsoluteTarget env target with
    | none =>
      let tail := launchTail env item target args none none
      (tail.1, resolved.2 ++ tail.2)
    | some absoluteTarget =>
      match env.fsys absoluteTarget with
      | none =>
        (launchError "TARGET_NOT_FOUND" ("Target path does not exist for \x27" ++ item.name ++ "\x27.")
          (some absoluteTarget),
         resolved.2 ++ [Event.existsCheck absoluteTarget])
      | some stat =>
        let preTrace := resolved.2 ++ [Event.existsCheck absoluteTarget, Event.statCheck absoluteTarget]
        if stat.isDirectory then
          let opened := openPathTarget env absoluteTarget item.name
          (opened.1, preTrace ++ opened.2)
        else if stat.isFile ∧ args.length = 0 then
          let extension := strLower (pathExtname env.platformWin32 absoluteTarget)
          if ¬ EXECUTABLE_EXTENSIONS.contains extension then
            let opened := openPathTarget env absoluteTarget item.name
            (opened.1, preTrace ++ opened.2)
          else
            let tail := launchTail env item target args (some absoluteTarget) (some absoluteTarget)
            (tail.1, preTrace ++ tail.2)
        else
          let tail := launchTail env item target args (some absoluteTarget) none
          (tail.1, preTrace ++ tail.2)

/-! ## Trace projections and result predicates -/

/-- Executables passed to `spawn`, in call order. -/
def spawnedExecutables (t : List Event) : List String :=
  t.filterMap (fun e => match e with | .spawnCall exe _ _ _ => some exe | _ => none)

/-- The `spawn` calls made with `shell: true`. -/
def shellResolutionSpawns (t : List Event) : List Event :=
  t.filter (fun e => match e with | .spawnCall _ _ _ useShell => useShell | _ => false)

/-- Paths passed to `shell.openPath`, in call order. -/
def openedPaths (t : List Event) : List String :=
  t.filterMap (fun e => match e with | .pathOpen p => some p | _ => none)

/-- URLs passed to `shell.openExternal`, in call order. -/
def openedUrls (t : List Event) : List String :=
  t.filterMap (fun e => match e with | .urlOpen u => some u | _ => none)

/-- Paths whose existence or stat was read from the filesystem snapshot. -/
def filesystemChecks (t : List Event) : List String :=
  t.filterMap (fun e =>
    match e with
    | .existsCheck p => some p
    | .statCheck p => some p
    | _ => none)

/-- Number of `tasklist` invocations in a trace. -/
def tasklistCallCount (t : List Event) : Nat :=
  (t.filter (fun e => match e with | .tasklistQuery _ => true | _ => false)).length

/-- The three failure kinds the launch engine may produce. -/
def isEngineFailureCode (code : String) : Bool :=
  code = "TARGET_NOT_FOUND" || code = "TARGET_PERMISSION_DENIED" || code = "TARGET_LAUNCH_FAILED"

/-- A terminal launch outcome: success, or a failure of one of the three
engine failure kinds. -/
def isTerminalLaunchResult : LaunchResult → Bool
  | .ok _ => true
  | .err code _ _ => isEngineFailureCode code

/-! ## Concrete fixtures used by the witness theorems -/

/-- A small filesystem snapshot: one executable, one document, their parent
directories. -/
def witnessFs : String → Option FileStat := fun p =>
  if p = "C:\\tools\\app.exe" then some ⟨false, true⟩
  else if p = "C:\\docs\\notes.txt" then some ⟨false, true⟩
  else if p = "C:\\tools" then some ⟨true, false⟩
  else if p = "C:\\docs" then some ⟨true, false⟩
  else none

/-- A benign default environment: Windows, every primitive succeeds, the
command search finds nothing, the process list shows the image running. -/
def witnessEnv : Env where
  platformWin32 := true
  cwd := "C:\\cwd"
  fsys := witnessFs
  whereStatus := fun _ => some 1
  whereStdout := fun _ => ""
  openExternal := fun _ => .ok ()
  openPath := fun _ => ""
  spawnOutcome := fun _ _ _ _ => .ok ()
  tasklistStatus := fun _ _ => some 0
  tasklistStdout := fun _ _ => "\x22app.exe\x22,\x22123\x22,\x22Console\x22"

/-- An item over a given target, with fixed identity fields. -/
def witnessItem (target : String) (args : LauncherArgs) (workingDir : Option String) :
    LauncherItem :=
  { id := "item-1", name := "N", categoryId := "cat", target := target,
    args := args, workingDir := workingDir }

/-- Environment in which every spawn with `shell: false` rejects with ENOENT
and every spawn with `shell: true` rejects with a generic error. -/
def enoentEnv : Env :=
  { witnessEnv with
    spawnOutcome := fun _ _ _ useShell =>
      if useShell then .error ⟨some "EUNKNOWN", "shell spawn failed"⟩
      else .error ⟨some "ENOENT", "not found"⟩ }

/-- Environment in which every spawn rejects with EACCES. -/
def eaccesEnv : Env :=
  { witnessEnv with spawnOutcome := fun _ _ _ _ => .error ⟨some "EACCES", "denied"⟩ }

/-- Environment in which every `tasklist` invocation fails (exit status 1). -/
def tasklistDownEnv : Env :=
  { witnessEnv with tasklistStatus := fun _ _ => some 1 }

/-- Environment in which `where.exe` answers with a WindowsApps alias first
and a real path second. -/
def whereTwoHitsEnv : Env :=
  { witnessEnv with
    fsys := fun p =>
      if p = "C:\\Program Files\\WindowsApps\\np.exe" then some ⟨false, true⟩ else witnessFs p
    whereStatus := fun _ => some 0
    whereStdout := fun _ => "C:\\Program Files\\WindowsApps\\np.exe\r\nC:\\tools\\app.exe\r\n" }

/-- Environment whose URL opener rejects. -/
def urlFailEnv : Env :=
  { witnessEnv with openExternal := fun _ => .error "no browser" }

end PapaShortcut

namespace PapaShortcut

/-! ## Helper lemmas on traces -/

theorem spawnedExecutables_append (t₁ t₂ : List Event) :
    spawnedExecutables (t₁ ++ t₂) = spawnedExecutables t₁ ++ spawnedExecutables t₂ := by
  simp [spawnedExecutables]

theorem openedPaths_append (t₁ t₂ : List Event) :
    openedPaths (t₁ ++ t₂) = openedPaths t₁ ++ openedPaths t₂ := by
  simp [openedPaths]

theorem openedUrls_append (t₁ t₂ : List Event) :
    openedUrls (t₁ ++ t₂) = openedUrls t₁ ++ openedUrls t₂ := by
  simp [openedUrls]

theorem tasklistCallCount_append (t₁ t₂ : List Event) :
    tasklistCallCount (t₁ ++ t₂) = tasklistCallCount t₁ + tasklistCallCount t₂ := by
  simp [tasklistCallCount]

theorem spawnedExecutables_existsChecks (ps : List String) :
    spawnedExecutables (ps.map Event.existsCheck) = [] := by
  simp [spawnedExecutables]

theorem openedPaths_existsChecks (ps : List String) :
    openedPaths (ps.map Event.existsCheck) = [] := by
  simp [openedPaths]

theorem openedUrls_existsChecks (ps : List String) :
    openedUrls (ps.map Event.existsCheck) = [] := by
  simp [openedUrls]

theorem tasklistCallCount_existsChecks (ps : List String) :
    tasklistCallCount (ps.map Event.existsCheck) = 0 := by
  simp [tasklistCallCount]

/-- The Command Resolver performs only `where.exe` queries and existence
checks: its trace contains no spawn, no path open, no URL open, no
`tasklist`. -/
theorem resolver_trace_quiet (env : Env) (command : String) :
    spawnedExecutables (resolveWindowsCommandPath env command).2 = [] ∧
    openedPaths (resolveWindowsCommandPath env command).2 = [] ∧
    openedUrls (resolveWindowsCommandPath env command).2 = [] ∧
    tasklistCallCount (resolveWindowsCommandPath env command).2 = 0 := by
  unfold resolveWindowsCommandPath
  split
  · simp [spawnedExecutables, openedPaths, openedUrls, tasklistCallCount]
  · split
    · simp [spawnedExecutables, openedPaths, openedUrls, tasklistCallCount]
    · split <;>
        (simp [spawnedExecutables, openedPaths, openedUrls, tasklistCallCount]
         <;> (intro a x hx hne h; subst h; rfl))

/-! ## Tokenizer lemmas -/

/-- The fuel of `matchTokensAux` is irrelevant as long as it bounds the
input length. -/
theorem matchTokensAux_fuel_irrelevant :
    ∀ (f₁ : Nat) (l : List Char) (f₂ : Nat), l.length ≤ f₁ → l.length ≤ f₂ →
      matchTokensAux f₁ l = matchTokensAux f₂ l := by
  intro f₁
  induction f₁ with
  | zero =>
    intro l f₂ h1 _
    have hnil : l = [] := List.length_eq_zero.mp (Nat.le_zero.mp h1)
    subst hnil
    cases f₂ <;> rfl
  | succ n ih =>
    intro l f₂ h1 h2
    match l, f₂ with
    | [], f₂ => cases f₂ <;> rfl
    | c :: rest, 0 => simp at h2
    | c :: rest, m + 1 =>
      have hr : rest.length ≤ n := by simp only [List.length_cons] at h1; omega
      have hrm : rest.length ≤ m := by simp only [List.length_cons] at h2; omega
      have hdrop : ∀ k, (rest.drop k).length ≤ rest.length := by
        intro k; simp [List.length_drop]
      have hdw : (rest.dropWhile (fun ch => !jsWhitespaceChar ch && ch ≠ '"')).length ≤
          rest.length := (List.dropWhile_sublist _).length_le
      simp only [matchTokensAux]
      by_cases hws : jsWhitespaceChar c
      · simp only [hws, if_true]
        exact ih rest m hr hrm
      · simp only [hws, Bool.false_eq_true, if_false]
        by_cases hq : c = '"'
        · simp only [hq, if_true]
          by_cases hin :
              (rest.takeWhile (fun ch => ch ≠ '"')).length < rest.length
          · simp only [hin, if_true]
            exact congrArg _ (ih _ m (le_trans (hdrop _) hr) (le_trans (hdrop _) hrm))
          · simp only [hin, if_false]
            exact ih rest m hr hrm
        · simp only [hq, if_false]
          exact congrArg _ (ih _ m (le_trans hdw hr) (le_trans hdw hrm))

/-- The natural one-step recursion of the token scan. -/
theorem matchTokens_cons (c : Char) (rest : List Char) :
    matchTokens (c :: rest) =
      if jsWhitespaceChar c then matchTokens rest
      else if c = '"' then
        (if (rest.takeWhile (fun ch => ch ≠ '"')).length < rest.length then
          ('"' :: rest.takeWhile (fun ch => ch ≠ '"') ++ ['"']) ::
            matchTokens (rest.drop ((rest.takeWhile (fun ch => ch ≠ '"')).length + 1))
        else matchTokens rest)
      else
        (c :: rest.takeWhile (fun ch => !jsWhitespaceChar ch && ch ≠ '"')) ::
          matchTokens (rest.dropWhile (fun ch => !jsWhitespaceChar ch && ch ≠ '"')) := by
  have hdrop : ∀ k, (rest.drop k).length ≤ rest.length := by
    intro k; simp [List.length_drop]
  have hdw : (rest.dropWhile (fun ch => !jsWhitespaceChar ch && ch ≠ '"')).length ≤
      rest.length := (List.dropWhile_sublist _).length_le
  show matchTokensAux (rest.length + 1) (c :: rest) = _
  simp only [matchTokensAux, matchTokens]
  by_cases hws : jsWhitespaceChar c
  · simp only [hws, if_true]
  · simp only [hws, Bool.false_eq_true, if_false]
    by_cases hq : c = '"'
    · simp only [hq, if_true]
      by_cases hin : (rest.takeWhile (fun ch => ch ≠ '"')).length < rest.length
      · simp only [hin, if_true]
        exact congrArg _ (matchTokensAux_fuel_irrelevant _ _ _ (hdrop _) le_rfl)
      · simp only [hin, if_false]
    · simp only [hq, if_false]
      exact congrArg _ (matchTokensAux_fuel_irrelevant _ _ _ hdw le_rfl)

theorem takeWhile_append_of_nil (p : Char → Bool) (l₁ l₂ : List Char)
    (h : l₂.takeWhile p = []) : (l₁ ++ l₂).takeWhile p = l₁.takeWhile p := by
  induction l₁ with
  | nil => simpa using h
  | cons a t ih =>
    cases hpa : p a <;> simp [List.takeWhile_cons, hpa, ih]

theorem dropWhile_append_of_fixed (p : Char → Bool) (l₁ l₂ : List Char)
    (h : l₂.dropWhile p = l₂) : (l₁ ++ l₂).dropWhile p = l₁.dropWhile p ++ l₂ := by
  induction l₁ with
  | nil => simpa using h
  | cons a t ih =>
    cases hpa : p a <;> simp [List.dropWhile_cons, hpa, ih]

/-- An opening quote whose tail holds no further quote is skipped by the
tokenizer: the regex alternative `"[^"]*"` fails there, the scan advances one
position, and the tail is tokenized by the usual rules. -/
theorem matchTokens_unterminated (post : List Char) (hpost : ∀ c ∈ post, c ≠ '"') :
    matchTokens ('"' :: post) = matchTokens post := by
  have htake : post.takeWhile (fun ch => ch ≠ '"') = post := by
    rw [List.takeWhile_eq_self_iff]
    intro x hx
    simpa using hpost x hx
  have hws : jsWhitespaceChar '"' = false := by decide
  rw [matchTokens_cons, htake]
  simp [hws]

/-- Helper for the amended C7 statement, by strong induction on the length
of the quote-free part before the unterminated quote. -/
theorem matchTokens_skip_quote_aux :
    ∀ (n : Nat) (pre post : List Char), pre.length ≤ n →
      (∀ c ∈ pre, c ≠ '"') → (∀ c ∈ post, c ≠ '"') →
      matchTokens (pre ++ '"' :: post) = matchTokens pre ++ matchTokens post := by
  intro n
  induction n with
  | zero =>
    intro pre post hlen hpre hpost
    have hnil : pre = [] := List.length_eq_zero.mp (Nat.le_zero.mp hlen)
    subst hnil
    have h0 : matchTokens ([] : List Char) = [] := rfl
    simpa [h0] using matchTokens_unterminated post hpost
  | succ n ih =>
    intro pre post hlen hpre hpost
    match pre with
    | [] =>
      have h0 : matchTokens ([] : List Char) = [] := rfl
      simpa [h0] using matchTokens_unterminated post hpost
    | c :: rest =>
      have hc : c ≠ '"' := hpre c (by simp)
      have hrest : ∀ x ∈ rest, x ≠ '"' := fun x hx => hpre x (by simp [hx])
      have hlen2 : rest.length ≤ n := by
        simp only [List.length_cons] at hlen; omega
      cases hws : jsWhitespaceChar c with
      | true =>
        rw [List.cons_append, matchTokens_cons, matchTokens_cons]
        simp only [hws, if_true]
        exact ih rest post hlen2 hrest hpost
      | false =>
        have htkA : ('"' :: post).takeWhile (fun ch => !jsWhitespaceChar ch && ch ≠ '"') = [] := by
          simp [List.takeWhile_cons]
        have hdrA : ('"' :: post).dropWhile (fun ch => !jsWhitespaceChar ch && ch ≠ '"') =
            '"' :: post := by
          simp [List.dropWhile_cons]
        have htw : (rest ++ '"' :: post).takeWhile (fun ch => !jsWhitespaceChar ch && ch ≠ '"') =
            rest.takeWhile (fun ch => !jsWhitespaceChar ch && ch ≠ '"') :=
          takeWhile_append_of_nil _ rest _ htkA
        have hdw : (rest ++ '"' :: post).dropWhile (fun ch => !jsWhitespaceChar ch && ch ≠ '"') =
            rest.dropWhile (fun ch => !jsWhitespaceChar ch && ch ≠ '"') ++ '"' :: post :=
          dropWhile_append_of_fixed _ rest _ hdrA
        have hdropsub : ∀ x ∈ rest.dropWhile (fun ch => !jsWhitespaceChar ch && ch ≠ '"'),
            x ≠ '"' := fun x hx => hrest x ((List.dropWhile_sublist _).subset hx)
        have hlen3 : (rest.dropWhile (fun ch => !jsWhitespaceChar ch && ch ≠ '"')).length ≤ n :=
          le_trans (List.dropWhile_sublist _).length_le hlen2
        rw [List.cons_append, matchTokens_cons, matchTokens_cons]
        simp only [hws, Bool.false_eq_true, if_false, htw, hdw]
        simp only [if_neg hc]
        rw [ih _ post hlen3 hdropsub hpost]
        simp

/-! ## C7 and C8: tokenizer claims -/

/-- C7 (counterexample): on the malformed input `a "b c` the tokenizer does
NOT treat the rest of the string after the opening quote (`b c`) as part of
the last token: it yields the three tokens `a`, `b`, `c`, none of which
contains `b c`. -/
theorem c7_unterminated_quote_counterexample :
    normalizeArgs (.ofString "a \"b c") = ["a", "b", "c"] ∧
    ∀ tok ∈ normalizeArgs (.ofString "a \"b c"), containsSub tok "b c" = false := by
  constructor
  · rfl
  · decide

/-- C7 (amended): the tokenizer is a total function and an unterminated
double quote degenerates as follows: the opening quote is skipped and the
remainder of the string is tokenized by the ordinary whitespace rules
(possibly into several tokens), rather than becoming part of the last
token. -/
theorem c7_unterminated_quote_amended (pre post : List Char)
    (hpre : ∀ c ∈ pre, c ≠ '"') (hpost : ∀ c ∈ post, c ≠ '"') :
    matchTokens (pre ++ '"' :: post) = matchTokens pre ++ matchTokens post :=
  matchTokens_skip_quote_aux pre.length pre post le_rfl hpre hpost

/-- Witness for the amended C7 at the concrete split of `a "b c`. -/
theorem c7_unterminated_quote_amended_witness :
    (∀ c ∈ ("a ".data), c ≠ '"') ∧ (∀ c ∈ ("b c".data), c ≠ '"') ∧
    matchTokens ("a ".data ++ '"' :: "b c".data) =
      matchTokens "a ".data ++ matchTokens "b c".data :=
  ⟨by decide, by decide,
   c7_unterminated_quote_amended "a ".data "b c".data (by decide) (by decide)⟩

/-- C8: tokenizing `ping -n 1 "8.8.8.8"` yields exactly
`["ping", "-n", "1", "8.8.8.8"]`, and the empty and the whitespace-only
string tokenize to the empty sequence. -/
theorem c8_tokenizer_examples :
    normalizeArgs (.ofString "ping -n 1 \"8.8.8.8\"") = ["ping", "-n", "1", "8.8.8.8"] ∧
    normalizeArgs (.ofString "") = [] ∧
    normalizeArgs (.ofString "   ") = [] := by
  refine ⟨?_, ?_, ?_⟩ <;> rfl

/-! ## C5: URL targets -/

/-- C5: for a target whose trimmed value matches `^https?://`
case-insensitively, `launchItem` performs no filesystem check, no spawn and
no shell open; it calls the URL opener exactly once, returns
`Success{"Opened URL: <name>"}` when that primitive succeeds and
`Failure{LaunchFailed}` when it throws. -/
theorem c5_url_target (env : Env) (item : LauncherItem)
    (hurl : isHttpUrlTarget (jsTrim item.target) = true) :
    (launchItem env item).2 = [Event.urlOpen (jsTrim item.target)] ∧
    filesystemChecks (launchItem env item).2 = [] ∧
    spawnedExecutables (launchItem env item).2 = [] ∧
    openedPaths (launchItem env item).2 = [] ∧
    openedUrls (launchItem env item).2 = [jsTrim item.target] ∧
    (env.openExternal (jsTrim item.target) = .ok () →
      (launchItem env item).1 = .ok ("Opened URL: " ++ item.name)) ∧
    (∀ e, env.openExternal (jsTrim item.target) = .error e →
      (launchItem env item).1 =
        launchError "TARGET_LAUNCH_FAILED"
          ("Failed to open URL for \x27" ++ item.name ++ "\x27.") (some e)) := by
  cases hoe : env.openExternal (jsTrim item.target) with
  | ok u =>
    cases u
    refine ⟨?_, ?_, ?_, ?_, ?_, ?_, ?_⟩ <;>
      simp [launchItem, hurl, hoe, filesystemChecks, spawnedExecutables, openedPaths,
        openedUrls, launchError]
  | error e =>
    refine ⟨?_, ?_, ?_, ?_, ?_, ?_, ?_⟩ <;>
      simp [launchItem, hurl, hoe, filesystemChecks, spawnedExecutables, openedPaths,
        openedUrls, launchError]

/-- Witness for C5 on a concrete https target. -/
theorem c5_url_target_witness :
    isHttpUrlTarget (jsTrim "https://example.com") = true ∧
    (launchItem witnessEnv (witnessItem "https://example.com" .missing none)).2 =
      [Event.urlOpen (jsTrim "https://example.com")] ∧
    (launchItem witnessEnv (witnessItem "https://example.com" .missing none)).1 =
      .ok ("Opened URL: " ++ "N") :=
  ⟨by decide,
   (c5_url_target witnessEnv (witnessItem "https://example.com" .missing none) (by decide)).1,
   (c5_url_target witnessEnv (witnessItem "https://example.com" .missing none)
      (by decide)).2.2.2.2.2.1 rfl⟩

/-! ## C6: missing absolute targets -/

/-- C6: a non-URL target that is (or resolves to) an absolute path missing
from the filesystem snapshot yields `Failure{TargetNotFound}` carrying that
path, and no spawn, no shell open and no URL open is performed. -/
theorem c6_missing_absolute_target (env : Env) (item : LauncherItem) (p : String)
    (hurl : isHttpUrlTarget (jsTrim item.target) = false)
    (habs : computeAbsoluteTarget env (jsTrim item.target) = some p)
    (hmiss : env.fsys p = none) :
    (launchItem env item).1 =
      launchError "TARGET_NOT_FOUND"
        ("Target path does not exist for \x27" ++ item.name ++ "\x27.") (some p) ∧
    spawnedExecutables (launchItem env item).2 = [] ∧
    openedPaths (launchItem env item).2 = [] ∧
    openedUrls (launchItem env item).2 = [] := by
  have hres := resolver_trace_quiet env (jsTrim item.target)
  have htr : (launchItem env item).2 =
      (resolveWindowsCommandPath env (jsTrim item.target)).2 ++ [Event.existsCheck p] := by
    simp [launchItem, hurl, habs, hmiss]
  refine ⟨?_, ?_, ?_, ?_⟩
  · simp [launchItem, hurl, habs, hmiss, launchError]
  · rw [htr, spawnedExecutables_append, hres.1]
    rfl
  · rw [htr, openedPaths_append, hres.2.1]
    rfl
  · rw [htr, openedUrls_append, hres.2.2.1]
    rfl

/-- Witness for C6 on a concrete missing absolute path. -/
theorem c6_missing_absolute_target_witness :
    computeAbsoluteTarget witnessEnv (jsTrim "C:\\missing\\x.exe") = some "C:\\missing\\x.exe" ∧
    witnessEnv.fsys "C:\\missing\\x.exe" = none ∧
    (launchItem witnessEnv (witnessItem "C:\\missing\\x.exe" .missing none)).1 =
      launchError "TARGET_NOT_FOUND"
        ("Target path does not exist for \x27" ++ "N" ++ "\x27.") (some "C:\\missing\\x.exe") :=
  ⟨rfl, rfl,
   (c6_missing_absolute_target witnessEnv (witnessItem "C:\\missing\\x.exe" .missing none)
      "C:\\missing\\x.exe" (by decide) rfl rfl).1⟩

/-! ## C4: spawn-time failure handling -/

theorem listContainsSub_of_mem (c : Char) (l : List Char) (h : c ∈ l) :
    listContainsSub [c] l = true := by
  induction l with
  | nil => cases h
  | cons x xs ih =>
    rcases List.mem_cons.mp h with h1 | h2
    · subst h1
      simp [listContainsSub, List.isPrefixOf]
    · simp [listContainsSub, ih h2]

/-- An absolute path (either flavour of `node:path`) holds a path separator,
so it is never a bare command for the spawn retry logic. -/
theorem pathIsAbsolute_has_separator (w : Bool) (s : String)
    (h : pathIsAbsolute w s = true) :
    containsSub s "\\" = true ∨ containsSub s "/" = true := by
  have hmem : '\\' ∈ s.data ∨ '/' ∈ s.data := by
    unfold pathIsAbsolute at h
    match hs : s.data with
    | [] => rw [hs] at h; simp at h
    | c :: rest =>
      rw [hs] at h
      cases w with
      | false =>
        simp only [if_false, Bool.false_eq_true, decide_eq_true_eq] at h
        subst h
        right
        simp
      | true =>
        simp only [if_true] at h
        rcases Bool.or_eq_true _ _ |>.mp h with hsep | hboth
        · unfold isPathSeparator at hsep
          simp only [Bool.true_and, Bool.or_eq_true, decide_eq_true_eq] at hsep
          rcases hsep with h1 | h1 <;> subst h1
          · right; simp
          · left; simp
        · rcases Bool.and_eq_true _ _ |>.mp hboth with ⟨_, hmatch⟩
          match rest with
          | [] => simp at hmatch
          | [r1] =>
            by_cases hr1 : r1 = ':' <;> simp [hr1] at hmatch
          | r1 :: d :: t =>
            by_cases hr1 : r1 = ':'
            · subst hr1
              simp only [Bool.or_eq_true, decide_eq_true_eq] at hmatch
              rcases hmatch with h1 | h1 <;> subst h1
              · right; simp
              · left; simp
            · simp [hr1] at hmatch
  have hbs : "\\".data = ['\\'] := rfl
  have hsl : "/".data = ['/'] := rfl
  unfold containsSub
  rcases hmem with h1 | h1
  · left; rw [hbs]; exact listContainsSub_of_mem _ _ h1
  · right; rw [hsl]; exact listContainsSub_of_mem _ _ h1

/-- C4: ENOENT on a bare command triggers exactly one retry through the
shell (and a second failure is `Failure{LaunchFailed}`); a spawn of an
absolute path never retries; EACCES/EPERM become
`Failure{PermissionDenied}`; any other failure becomes
`Failure{LaunchFailed}`. -/
theorem c4_spawn_failure_handling (env : Env) (executable : String)
    (args : List String) (cwd itemName : String) :
    (∀ e, env.spawnOutcome executable args cwd false = .error e →
      e.code = some "ENOENT" →
      (!containsSub executable "\\" && !containsSub executable "/" &&
        !executable.isEmpty) = true →
      (spawnProcess env executable args cwd itemName).2 =
        [Event.spawnCall executable args cwd false, Event.spawnCall executable args cwd true] ∧
      (∀ fe, env.spawnOutcome executable args cwd true = .error fe →
        (spawnProcess env executable args cwd itemName).1 =
          launchError "TARGET_LAUNCH_FAILED" ("Failed to launch \x27" ++ itemName ++ "\x27.")
            (some fe.message)))
    ∧ (∀ w, pathIsAbsolute w executable = true →
        shellResolutionSpawns (spawnProcess env executable args cwd itemName).2 = [])
    ∧ (∀ e, env.spawnOutcome executable args cwd false = .error e →
        (e.code = some "EACCES" ∨ e.code = some "EPERM") →
        (spawnProcess env executable args cwd itemName).1 =
          launchError "TARGET_PERMISSION_DENIED"
            ("Permission denied while launching \x27" ++ itemName ++ "\x27.")
            (some e.message))
    ∧ (∀ e, env.spawnOutcome executable args cwd false = .error e →
        ¬(e.code = some "ENOENT" ∧
          (!containsSub executable "\\" && !containsSub executable "/" &&
            !executable.isEmpty) = true) →
        e.code ≠ some "EACCES" → e.code ≠ some "EPERM" →
        (spawnProcess env executable args cwd itemName).1 =
          launchError "TARGET_LAUNCH_FAILED" ("Failed to launch \x27" ++ itemName ++ "\x27.")
            (some e.message)) := by
  refine ⟨?_, ?_, ?_, ?_⟩
  · intro e hsp hcode hbare
    unfold spawnProcess
    rw [hsp]
    simp only [hcode, hbare]
    constructor
    · cases hsp2 : env.spawnOutcome executable args cwd true <;> simp
    · intro fe hsp2
      rw [hsp2]
      simp
  · intro w hw
    have hsep : (!containsSub executable "\\" && !containsSub executable "/" &&
        !executable.isEmpty) = false := by
      rcases pathIsAbsolute_has_separator w executable hw with h1 | h1 <;> simp [h1]
    unfold spawnProcess
    cases hsp : env.spawnOutcome executable args cwd false with
    | ok u => simp [shellResolutionSpawns]
    | error e =>
      simp only [hsep, and_false]
      split
      · simp_all
      · split <;> simp [shellResolutionSpawns]
  · intro e hsp hperm
    have hne : e.code ≠ some "ENOENT" := by
      rcases hperm with h1 | h1 <;> simp [h1]
    unfold spawnProcess
    rw [hsp]
    simp [hne, hperm]
  · intro e hsp hnret hna hnp
    unfold spawnProcess
    rw [hsp]
    simp only [Bool.and_eq_true, Bool.not_eq_true'] at hnret
    simp [hnret, hna, hnp]

/-- Witness for C4: a bare command with ENOENT and a failing retry, and an
absolute path with EACCES. -/
theorem c4_spawn_failure_handling_witness :
    (spawnProcess enoentEnv "notepad" [] "C:\\cwd" "N").2 =
      [Event.spawnCall "notepad" [] "C:\\cwd" false,
       Event.spawnCall "notepad" [] "C:\\cwd" true] ∧
    (spawnProcess enoentEnv "notepad" [] "C:\\cwd" "N").1 =
      launchError "TARGET_LAUNCH_FAILED" ("Failed to launch \x27" ++ "N" ++ "\x27.")
        (some "shell spawn failed") ∧
    shellResolutionSpawns (spawnProcess eaccesEnv "C:\\tools\\app.exe" [] "C:\\cwd" "N").2 = [] ∧
    (spawnProcess eaccesEnv "C:\\tools\\app.exe" [] "C:\\cwd" "N").1 =
      launchError "TARGET_PERMISSION_DENIED"
        ("Permission denied while launching \x27" ++ "N" ++ "\x27.") (some "denied") := by
  obtain ⟨ha, _, _, _⟩ := c4_spawn_failure_handling enoentEnv "notepad" [] "C:\\cwd" "N"
  obtain ⟨_, hb2, hc2, _⟩ :=
    c4_spawn_failure_handling eaccesEnv "C:\\tools\\app.exe" [] "C:\\cwd" "N"
  exact ⟨(ha ⟨some "ENOENT", "not found"⟩ rfl rfl (by decide)).1,
    (ha ⟨some "ENOENT", "not found"⟩ rfl rfl (by decide)).2 ⟨some "EUNKNOWN", "shell spawn failed"⟩ rfl,
    hb2 true (by decide),
    hc2 ⟨some "EACCES", "denied"⟩ rfl (Or.inl rfl)⟩

/-! ## C1: totality and the closed failure taxonomy -/

theorem openPathTarget_terminal (env : Env) (targetPath itemName : String) :
    isTerminalLaunchResult (openPathTarget env targetPath itemName).1 = true := by
  simp only [openPathTarget]
  split <;> rfl

theorem spawnProcess_terminal (env : Env) (executable : String) (args : List String)
    (cwd itemName : String) :
    isTerminalLaunchResult (spawnProcess env executable args cwd itemName).1 = true := by
  unfold spawnProcess
  cases hsp : env.spawnOutcome executable args cwd false with
  | ok u => rfl
  | error e =>
    dsimp only
    split
    · cases hsp2 : env.spawnOutcome executable args cwd true with
      | ok u => rfl
      | error fe => rfl
    · split <;> rfl

theorem launchTail_terminal (env : Env) (item : LauncherItem) (target : String)
    (args : List String) (absoluteTarget executableNoArgsAbsoluteTarget : Option String) :
    isTerminalLaunchResult
      (launchTail env item target args absoluteTarget executableNoArgsAbsoluteTarget).1 = true := by
  unfold launchTail
  dsimp only
  split
  · rfl
  · split
    · rename_i exePath
      cases hsp : (spawnProcess env exePath []
          (effectiveWorkingDir env item absoluteTarget) item.name).1 with
      | ok okMessage =>
        dsimp only
        split
        · rfl
        · exact openPathTarget_terminal env exePath item.name
      | err c m d =>
        have := spawnProcess_terminal env exePath []
          (effectiveWorkingDir env item absoluteTarget) item.name
        rw [hsp] at this
        exact this
    · exact spawnProcess_terminal env (absoluteTarget.getD target) args
        (effectiveWorkingDir env item absoluteTarget) item.name

/-- C1: for every item and every OS state, `launchItem` produces a terminal
`LaunchResult`: either a success, or a failure whose kind is one of
TargetNotFound, PermissionDenied, LaunchFailed.  Every primitive the launch
path calls is modelled with an explicit failure outcome (`Except`, error
strings, exit status), and each of those outcomes lands in one of the three
failure constructors, so no error escapes as an unhandled fault. -/
theorem c1_launch_total_terminal (env : Env) (item : LauncherItem) :
    isTerminalLaunchResult (launchItem env item).1 = true := by
  unfold launchItem
  dsimp only
  split
  · split <;> rfl
  · split
    · exact launchTail_terminal env item (jsTrim item.target) (normalizeArgs item.args) none none
    · rename_i absoluteTarget heq
      split
      · rfl
      · split
        · exact openPathTarget_terminal env absoluteTarget item.name
        · split
          · split
            · exact openPathTarget_terminal env absoluteTarget item.name
            · exact launchTail_terminal env item (jsTrim item.target) (normalizeArgs item.args)
                (some absoluteTarget) (some absoluteTarget)
          · exact launchTail_terminal env item (jsTrim item.target) (normalizeArgs item.args)
              (some absoluteTarget) none

/-! ## Trace shapes of the action primitives -/

theorem openPathTarget_trace (env : Env) (targetPath itemName : String) :
    (openPathTarget env targetPath itemName).2 = [Event.pathOpen targetPath] := by
  simp only [openPathTarget]
  split <;> rfl

/-- Every spawn attempt starts with the `shell: false` spawn call. -/
theorem spawnProcess_trace_head (env : Env) (executable : String) (args : List String)
    (cwd itemName : String) :
    ∃ t, (spawnProcess env executable args cwd itemName).2 =
      Event.spawnCall executable args cwd false :: t := by
  unfold spawnProcess
  cases hsp : env.spawnOutcome executable args cwd false with
  | ok u => exact ⟨[], rfl⟩
  | error e =>
    dsimp only
    split
    · cases hsp2 : env.spawnOutcome executable args cwd true with
      | ok u => exact ⟨[Event.spawnCall executable args cwd true], rfl⟩
      | error fe => exact ⟨[Event.spawnCall executable args cwd true], rfl⟩
    · split
      · exact ⟨[], rfl⟩
      · exact ⟨[], rfl⟩

/-- One process-list poll performs exactly one `tasklist` call on Windows
and none elsewhere. -/
theorem isWindowsProcessImageRunning_trace (env : Env) (imageName : String) (attempt : Nat) :
    (isWindowsProcessImageRunning env imageName attempt).2 =
      if env.platformWin32 then [Event.tasklistQuery imageName] else [] := by
  unfold isWindowsProcessImageRunning
  cases hw : env.platformWin32
  · simp [hw]
  · simp only [hw, Bool.not_true, Bool.false_eq_true, if_false, if_true]
    split
    · rfl
    · split <;> rfl

/-- Every event of the verifier loop is a `tasklist` query for the image. -/
theorem verifyAttempts_trace_mem (env : Env) (imageName : String) :
    ∀ (fuel attempt : Nat) (e : Event), e ∈ (verifyAttempts env imageName attempt fuel).2 →
      e = Event.tasklistQuery imageName := by
  intro fuel
  induction fuel with
  | zero =>
    intro a e he
    simp [verifyAttempts] at he
  | succ n ih =>
    intro a e he
    unfold verifyAttempts at he
    dsimp only at he
    split at he
    · rw [isWindowsProcessImageRunning_trace] at he
      split at he
      · simpa using he
      · simp at he
    · rcases List.mem_append.mp he with h1 | h1
      · rw [isWindowsProcessImageRunning_trace] at h1
        split at h1
        · simpa using h1
        · simp at h1
      · exact ih (a + 1) e h1

/-- The verifier performs only `tasklist` calls. -/
theorem verify_trace_quiet (env : Env) (imageName : String) :
    spawnedExecutables (verifyProcessLaunch env imageName).2 = [] ∧
    openedPaths (verifyProcessLaunch env imageName).2 = [] ∧
    openedUrls (verifyProcessLaunch env imageName).2 = [] := by
  unfold verifyProcessLaunch
  split
  · exact ⟨rfl, rfl, rfl⟩
  · refine ⟨?_, ?_, ?_⟩ <;>
      (simp only [spawnedExecutables, openedPaths, openedUrls, List.filterMap_eq_nil_iff];
       intro e he;
       rw [verifyAttempts_trace_mem env imageName 6 0 e he])

/-! ## C2: document versus executable classification -/

/-- When the working-directory guard passes, the first spawned executable of
the tail is the no-argument executable when one was classified, else the
resolved launch target. -/
theorem spawnedExecutables_cons_spawn (exe : String) (args : List String) (cwd : String)
    (sh : Bool) (t : List Event) :
    spawnedExecutables (Event.spawnCall exe args cwd sh :: t) = exe :: spawnedExecutables t :=
  rfl

theorem launchTail_first_spawn (env : Env) (item : LauncherItem) (target : String)
    (args : List String) (p : String) (ena : Option String)
    (hguard : ¬(workingDirCandidateTruthy item ∧
      ¬ env.existsSync (effectiveWorkingDir env item (some p)))) :
    (spawnedExecutables (launchTail env item target args (some p) ena).2).head? =
      some (ena.getD p) := by
  have hwdtr : spawnedExecutables
      (if workingDirCandidateTruthy item
       then [Event.existsCheck (effectiveWorkingDir env item (some p))] else []) = [] := by
    split <;> rfl
  unfold launchTail
  dsimp only
  rw [if_neg hguard]
  cases ena with
  | some exePath =>
    obtain ⟨t, ht⟩ :=
      spawnProcess_trace_head env exePath [] (effectiveWorkingDir env item (some p)) item.name
    dsimp only
    cases hsp : (spawnProcess env exePath [] (effectiveWorkingDir env item (some p)) item.name).1 with
    | err c m d =>
      rw [spawnedExecutables_append, hwdtr, List.nil_append, ht, spawnedExecutables_cons_spawn]
      rfl
    | ok okMessage =>
      dsimp only
      split
      · rw [spawnedExecutables_append, spawnedExecutables_append, hwdtr, List.nil_append, ht,
          spawnedExecutables_cons_spawn]
        rfl
      · rw [spawnedExecutables_append, spawnedExecutables_append, spawnedExecutables_append,
          hwdtr, List.nil_append, ht, spawnedExecutables_cons_spawn]
        rfl
  | none =>
    dsimp only
    rw [Option.getD_some]
    obtain ⟨t, ht⟩ := spawnProcess_trace_head env p args
      (effectiveWorkingDir env item (some p)) item.name
    rw [spawnedExecutables_append, hwdtr, List.nil_append, ht, spawnedExecutables_cons_spawn]
    rfl

/-- C2: a target resolving to an existing regular file is opened through the
shell (and never spawned) exactly when it has no resolved arguments and a
non-executable extension; otherwise it is treated as an executable: the
first spawned executable is the file itself. -/
theorem c2_document_vs_executable (env : Env) (item : LauncherItem) (p : String)
    (stat : FileStat)
    (hurl : isHttpUrlTarget (jsTrim item.target) = false)
    (habs : computeAbsoluteTarget env (jsTrim item.target) = some p)
    (hstat : env.fsys p = some stat)
    (hdir : stat.isDirectory = false)
    (hfile : stat.isFile = true) :
    (normalizeArgs item.args = [] →
      EXECUTABLE_EXTENSIONS.contains (strLower (pathExtname env.platformWin32 p)) = false →
      spawnedExecutables (launchItem env item).2 = [] ∧
      openedPaths (launchItem env item).2 = [p] ∧
      (launchItem env item).1 = (openPathTarget env p item.name).1) ∧
    ((normalizeArgs item.args ≠ [] ∨
      EXECUTABLE_EXTENSIONS.contains (strLower (pathExtname env.platformWin32 p)) = true) →
      (workingDirCandidateTruthy item = true →
        env.existsSync (effectiveWorkingDir env item (some p)) = true) →
      (spawnedExecutables (launchItem env item).2).head? = some p) := by
  have hres := resolver_trace_quiet env (jsTrim item.target)
  constructor
  · intro hargs hext
    have hextm : ¬ (strLower (pathExtname env.platformWin32 p) ∈ EXECUTABLE_EXTENSIONS) := by
      simpa using hext
    have hli : launchItem env item =
        ((openPathTarget env p item.name).1,
         ((resolveWindowsCommandPath env (jsTrim item.target)).2 ++
          [Event.existsCheck p, Event.statCheck p]) ++ (openPathTarget env p item.name).2) := by
      simp [launchItem, hurl, habs, hstat, hdir, hfile, hargs, hextm]
    rw [hli]
    refine ⟨?_, ?_, rfl⟩
    · rw [spawnedExecutables_append, spawnedExecutables_append, hres.1, openPathTarget_trace]
      rfl
    · rw [openedPaths_append, openedPaths_append, hres.2.1, openPathTarget_trace]
      rfl
  · intro hcase hwd
    have hguard : ¬(workingDirCandidateTruthy item ∧
        ¬ env.existsSync (effectiveWorkingDir env item (some p))) := by
      rintro ⟨h1, h2⟩
      exact h2 (hwd h1)
    by_cases hargs : normalizeArgs item.args = []
    · have hext : EXECUTABLE_EXTENSIONS.contains
          (strLower (pathExtname env.platformWin32 p)) = true := by
        rcases hcase with h | h
        · exact absurd hargs h
        · exact h
      have hextm : strLower (pathExtname env.platformWin32 p) ∈ EXECUTABLE_EXTENSIONS := by
        simpa using hext
      have hli : launchItem env item =
          ((launchTail env item (jsTrim item.target) (normalizeArgs item.args)
             (some p) (some p)).1,
           ((resolveWindowsCommandPath env (jsTrim item.target)).2 ++
            [Event.existsCheck p, Event.statCheck p]) ++
           (launchTail env item (jsTrim item.target) (normalizeArgs item.args)
             (some p) (some p)).2) := by
        simp [launchItem, hurl, habs, hstat, hdir, hfile, hargs, hextm]
      rw [hli]
      have hfirst := launchTail_first_spawn env item (jsTrim item.target)
        (normalizeArgs item.args) p (some p) hguard
      rw [spawnedExecutables_append, spawnedExecutables_append, hres.1]
      have h2 : spawnedExecutables [Event.existsCheck p, Event.statCheck p] = [] := rfl
      rw [h2, List.nil_append, List.nil_append]
      exact hfirst
    · have hlen : ¬((normalizeArgs item.args).length = 0) := by
        simpa [List.length_eq_zero] using hargs
      have hli : launchItem env item =
          ((launchTail env item (jsTrim item.target) (normalizeArgs item.args)
             (some p) none).1,
           ((resolveWindowsCommandPath env (jsTrim item.target)).2 ++
            [Event.existsCheck p, Event.statCheck p]) ++
           (launchTail env item (jsTrim item.target) (normalizeArgs item.args)
             (some p) none).2) := by
        simp [launchItem, hurl, habs, hstat, hdir, hfile, hlen]
      rw [hli]
      have hfirst := launchTail_first_spawn env item (jsTrim item.target)
        (normalizeArgs item.args) p none hguard
      rw [spawnedExecutables_append, spawnedExecutables_append, hres.1]
      have h2 : spawnedExecutables [Event.existsCheck p, Event.statCheck p] = [] := rfl
      rw [h2, List.nil_append, List.nil_append]
      exact hfirst

/-- Witness for C2: a text document is shell-opened, an `.exe` is spawned. -/
theorem c2_document_vs_executable_witness :
    (spawnedExecutables
        (launchItem witnessEnv (witnessItem "C:\\docs\\notes.txt" .missing none)).2 = [] ∧
      openedPaths
        (launchItem witnessEnv (witnessItem "C:\\docs\\notes.txt" .missing none)).2 =
        ["C:\\docs\\notes.txt"]) ∧
    (spawnedExecutables
        (launchItem witnessEnv (witnessItem "C:\\tools\\app.exe" .missing none)).2).head? =
      some "C:\\tools\\app.exe" := by
  have hdoc := (c2_document_vs_executable witnessEnv
    (witnessItem "C:\\docs\\notes.txt" .missing none) "C:\\docs\\notes.txt"
    ⟨false, true⟩ (by decide) rfl rfl rfl rfl).1 rfl (by decide)
  have hexe := (c2_document_vs_executable witnessEnv
    (witnessItem "C:\\tools\\app.exe" .missing none) "C:\\tools\\app.exe"
    ⟨false, true⟩ (by decide) rfl rfl rfl rfl).2 (Or.inr (by decide))
    (fun h => by exact absurd h (by decide))
  exact ⟨⟨hdoc.1, hdoc.2.1⟩, hexe⟩

/-! ## C3: post-spawn verification and shell-open fallback -/

/-- Reduction of `launchItem` for a resolved existing regular file with no
arguments and a recognized executable extension. -/
theorem launchItem_exec_noargs (env : Env) (item : LauncherItem) (p : String) (stat : FileStat)
    (hurl : isHttpUrlTarget (jsTrim item.target) = false)
    (habs : computeAbsoluteTarget env (jsTrim item.target) = some p)
    (hstat : env.fsys p = some stat)
    (hdir : stat.isDirectory = false)
    (hfile : stat.isFile = true)
    (hargs : normalizeArgs item.args = [])
    (hextm : strLower (pathExtname env.platformWin32 p) ∈ EXECUTABLE_EXTENSIONS) :
    launchItem env item =
      ((launchTail env item (jsTrim item.target) (normalizeArgs item.args) (some p) (some p)).1,
       ((resolveWindowsCommandPath env (jsTrim item.target)).2 ++
        [Event.existsCheck p, Event.statCheck p]) ++
       (launchTail env item (jsTrim item.target) (normalizeArgs item.args) (some p) (some p)).2) := by
  simp [launchItem, hurl, habs, hstat, hdir, hfile, hargs, hextm]

/-- Reduction of the dispatcher tail for a verified no-argument executable
whose working-directory guard passes and whose spawn handshake succeeds. -/
theorem launchTail_exec_spawn_ok (env : Env) (item : LauncherItem) (target : String)
    (args : List String) (p : String)
    (hguard : ¬(workingDirCandidateTruthy item ∧
      ¬ env.existsSync (effectiveWorkingDir env item (some p))))
    (hsp : spawnProcess env p [] (effectiveWorkingDir env item (some p)) item.name =
      (.ok ("Launched: " ++ item.name),
       [Event.spawnCall p [] (effectiveWorkingDir env item (some p)) false])) :
    launchTail env item target args (some p) (some p) =
      (if (verifyProcessLaunch env (pathBasename env.platformWin32 p)).1 then
        (.ok ("Launched: " ++ item.name),
         (if workingDirCandidateTruthy item
          then [Event.existsCheck (effectiveWorkingDir env item (some p))] else []) ++
         [Event.spawnCall p [] (effectiveWorkingDir env item (some p)) false] ++
         (verifyProcessLaunch env (pathBasename env.platformWin32 p)).2)
       else
        ((openPathTarget env p item.name).1,
         (if workingDirCandidateTruthy item
          then [Event.existsCheck (effectiveWorkingDir env item (some p))] else []) ++
         [Event.spawnCall p [] (effectiveWorkingDir env item (some p)) false] ++
         (verifyProcessLaunch env (pathBasename env.platformWin32 p)).2 ++
         (openPathTarget env p item.name).2)) := by
  unfold launchTail
  dsimp only
  rw [if_neg hguard, hsp]

/-- C3: a no-argument executable target is spawned, then the verifier is
consulted for the executable file name (every process-list query during the
launch uses exactly that image name); a verifier success returns the spawn
success, a verifier failure falls back to shell-open-path on the same
absolute path and that call decides the outcome. -/
theorem c3_spawn_verify_fallback (env : Env) (item : LauncherItem) (p : String) (stat : FileStat)
    (hurl : isHttpUrlTarget (jsTrim item.target) = false)
    (habs : computeAbsoluteTarget env (jsTrim item.target) = some p)
    (hstat : env.fsys p = some stat)
    (hdir : stat.isDirectory = false)
    (hfile : stat.isFile = true)
    (hargs : normalizeArgs item.args = [])
    (hext : EXECUTABLE_EXTENSIONS.contains (strLower (pathExtname env.platformWin32 p)) = true)
    (hwd : workingDirCandidateTruthy item = true →
      env.existsSync (effectiveWorkingDir env item (some p)) = true)
    (hspawn : env.spawnOutcome p [] (effectiveWorkingDir env item (some p)) false = .ok ()) :
    spawnedExecutables (launchItem env item).2 = [p] ∧
    (∀ img, Event.tasklistQuery img ∈ (launchItem env item).2 →
      img = pathBasename env.platformWin32 p) ∧
    ((verifyProcessLaunch env (pathBasename env.platformWin32 p)).1 = true →
      (launchItem env item).1 = .ok ("Launched: " ++ item.name) ∧
      openedPaths (launchItem env item).2 = []) ∧
    ((verifyProcessLaunch env (pathBasename env.platformWin32 p)).1 = false →
      openedPaths (launchItem env item).2 = [p] ∧
      (env.openPath p = "" → (launchItem env item).1 = .ok ("Opened: " ++ item.name)) ∧
      (env.openPath p ≠ "" → (launchItem env item).1 =
        launchError "TARGET_LAUNCH_FAILED"
          ("Failed to open path for \x27" ++ item.name ++ "\x27.")
          (some (env.openPath p)))) := by
  have hextm : strLower (pathExtname env.platformWin32 p) ∈ EXECUTABLE_EXTENSIONS := by
    simpa using hext
  have hguard : ¬(workingDirCandidateTruthy item ∧
      ¬ env.existsSync (effectiveWorkingDir env item (some p))) := by
    rintro ⟨h1, h2⟩
    exact h2 (hwd h1)
  have hsp : spawnProcess env p [] (effectiveWorkingDir env item (some p)) item.name =
      (.ok ("Launched: " ++ item.name),
       [Event.spawnCall p [] (effectiveWorkingDir env item (some p)) false]) := by
    unfold spawnProcess
    rw [hspawn]
  have hli := launchItem_exec_noargs env item p stat hurl habs hstat hdir hfile hargs hextm
  have htail := launchTail_exec_spawn_ok env item (jsTrim item.target)
    (normalizeArgs item.args) p hguard hsp
  have hres := resolver_trace_quiet env (jsTrim item.target)
  have hver := verify_trace_quiet env (pathBasename env.platformWin32 p)
  have hwdtr : spawnedExecutables
      (if workingDirCandidateTruthy item
       then [Event.existsCheck (effectiveWorkingDir env item (some p))] else []) = [] := by
    split <;> rfl
  have hwdtrP : openedPaths
      (if workingDirCandidateTruthy item
       then [Event.existsCheck (effectiveWorkingDir env item (some p))] else []) = [] := by
    split <;> rfl
  have hnotq : ∀ img, Event.tasklistQuery img ∉
      (if workingDirCandidateTruthy item
       then [Event.existsCheck (effectiveWorkingDir env item (some p))] else []) := by
    intro img
    split <;> simp
  have hresq : ∀ img, Event.tasklistQuery img ∉
      (resolveWindowsCommandPath env (jsTrim item.target)).2 := by
    intro img hmem
    have h0 := hres.2.2.2
    unfold tasklistCallCount at h0
    have hfil := List.filter_eq_nil_iff.mp (List.length_eq_zero.mp h0) _ hmem
    simp at hfil
  by_cases hv : (verifyProcessLaunch env (pathBasename env.platformWin32 p)).1 = true
  · have htail2 : launchTail env item (jsTrim item.target) (normalizeArgs item.args)
        (some p) (some p) =
        (.ok ("Launched: " ++ item.name),
         (if workingDirCandidateTruthy item
          then [Event.existsCheck (effectiveWorkingDir env item (some p))] else []) ++
         [Event.spawnCall p [] (effectiveWorkingDir env item (some p)) false] ++
         (verifyProcessLaunch env (pathBasename env.platformWin32 p)).2) := by
      rw [htail, if_pos hv]
    refine ⟨?_, ?_, ?_, ?_⟩
    · rw [hli]
      dsimp only
      rw [htail2]
      dsimp only
      rw [spawnedExecutables_append, spawnedExecutables_append, hres.1,
        spawnedExecutables_append, spawnedExecutables_append, hwdtr, hver.1]
      rfl
    · intro img hmem
      rw [hli] at hmem
      dsimp only at hmem
      rw [htail2] at hmem
      dsimp only at hmem
      rcases List.mem_append.mp hmem with h | h
      · rcases List.mem_append.mp h with h | h
        · exact absurd h (hresq img)
        · simp at h
      · rcases List.mem_append.mp h with h | h
        · rcases List.mem_append.mp h with h | h
          · exact absurd h (hnotq img)
          · simp at h
        · have := verifyAttempts_trace_mem env (pathBasename env.platformWin32 p) 6 0
            (Event.tasklistQuery img) (by
              revert h
              unfold verifyProcessLaunch
              split
              · intro h; simp at h
              · exact fun h => h)
          exact Event.tasklistQuery.inj this
    · intro _
      constructor
      · rw [hli]
        dsimp only
        rw [htail2]
      · rw [hli]
        dsimp only
        rw [htail2]
        dsimp only
        rw [openedPaths_append, openedPaths_append, hres.2.1,
          openedPaths_append, openedPaths_append, hwdtrP, hver.2.1]
        rfl
    · intro hv2
      rw [hv2] at hv
      simp at hv
  · have hvf : (verifyProcessLaunch env (pathBasename env.platformWin32 p)).1 = false :=
      Bool.eq_false_iff.mpr hv
    have htail2 : launchTail env item (jsTrim item.target) (normalizeArgs item.args)
        (some p) (some p) =
        ((openPathTarget env p item.name).1,
         (if workingDirCandidateTruthy item
          then [Event.existsCheck (effectiveWorkingDir env item (some p))] else []) ++
         [Event.spawnCall p [] (effectiveWorkingDir env item (some p)) false] ++
         (verifyProcessLaunch env (pathBasename env.platformWin32 p)).2 ++
         (openPathTarget env p item.name).2) := by
      rw [htail, if_neg hv]
    refine ⟨?_, ?_, ?_, ?_⟩
    · rw [hli]
      dsimp only
      rw [htail2]
      dsimp only
      rw [spawnedExecutables_append, spawnedExecutables_append, hres.1,
        spawnedExecutables_append, spawnedExecutables_append, spawnedExecutables_append,
        hwdtr, hver.1, openPathTarget_trace]
      rfl
    · intro img hmem
      rw [hli] at hmem
      dsimp only at hmem
      rw [htail2] at hmem
      dsimp only at hmem
      rcases List.mem_append.mp hmem with h | h
      · rcases List.mem_append.mp h with h | h
        · exact absurd h (hresq img)
        · simp at h
      · rcases List.mem_append.mp h with h | h
        · rcases List.mem_append.mp h with h | h
          · rcases List.mem_append.mp h with h | h
            · exact absurd h (hnotq img)
            · simp at h
          · have := verifyAttempts_trace_mem env (pathBasename env.platformWin32 p) 6 0
              (Event.tasklistQuery img) (by
                revert h
                unfold verifyProcessLaunch
                split
                · intro h; simp at h
                · exact fun h => h)
            exact Event.tasklistQuery.inj this
        · rw [openPathTarget_trace] at h
          simp at h
    · intro hv2
      rw [hv2] at hvf
      simp at hvf
    · intro _
      refine ⟨?_, ?_, ?_⟩
      · rw [hli]
        dsimp only
        rw [htail2]
        dsimp only
        rw [openedPaths_append, openedPaths_append, hres.2.1,
          openedPaths_append, openedPaths_append, openedPaths_append,
          hwdtrP, hver.2.1, openPathTarget_trace]
        rfl
      · intro hop
        rw [hli]
        dsimp only
        rw [htail2]
        dsimp only
        simp [openPathTarget, hop]
      · intro hop
        rw [hli]
        dsimp only
        rw [htail2]
        dsimp only
        simp [openPathTarget, hop]

/-- Witness for C3 in the benign environment: the spawn verifies and the
spawn success is returned. -/
theorem c3_spawn_verify_fallback_witness :
    spawnedExecutables
        (launchItem witnessEnv (witnessItem "C:\\tools\\app.exe" .missing none)).2 =
      ["C:\\tools\\app.exe"] ∧
    (launchItem witnessEnv (witnessItem "C:\\tools\\app.exe" .missing none)).1 =
      .ok ("Launched: " ++ "N") := by
  have h := c3_spawn_verify_fallback witnessEnv
    (witnessItem "C:\\tools\\app.exe" .missing none) "C:\\tools\\app.exe" ⟨false, true⟩
    (by decide) rfl rfl rfl rfl rfl (by decide) (by intro hc; exact absurd hc (by decide)) rfl
  exact ⟨h.1, (h.2.2.1 (by decide)).1⟩

/-! ## C10: verifier exhaustion when the process-list utility fails -/

/-- A `tasklist` invocation with nonzero exit status or blank output is read
as "image not running". -/
theorem isRunning_false_of_tasklist_failure (env : Env) (image : String) (a : Nat)
    (hw : env.platformWin32 = true)
    (h : env.tasklistStatus image a ≠ some 0 ∨ jsTrim (env.tasklistStdout image a) = "") :
    (isWindowsProcessImageRunning env image a).1 = false := by
  unfold isWindowsProcessImageRunning
  simp only [hw, Bool.not_true, Bool.false_eq_true, if_false]
  rcases h with h | h
  · rw [if_pos (Or.inl h)]
  · by_cases hst : env.tasklistStdout image a = ""
    · rw [if_pos (Or.inr hst)]
    · by_cases hq : env.tasklistStatus image a = some 0
      · rw [if_neg (by
          rintro (h1 | h1)
          · exact h1 hq
          · exact hst h1)]
        have hout : strLower (jsTrim (env.tasklistStdout image a)) = "" := by
          rw [h]
          rfl
        rw [if_pos hout]
      · rw [if_pos (Or.inl hq)]

/-- When every poll fails, the loop exhausts its fuel, answers `false` and
performs one `tasklist` call per attempt. -/
theorem verifyAttempts_all_fail (env : Env) (image : String)
    (hw : env.platformWin32 = true)
    (hfail : ∀ a, (isWindowsProcessImageRunning env image a).1 = false) :
    ∀ (fuel a : Nat), verifyAttempts env image a fuel =
      (false, List.replicate fuel (Event.tasklistQuery image)) := by
  intro fuel
  induction fuel with
  | zero => intro a; rfl
  | succ n ih =>
    intro a
    unfold verifyAttempts
    dsimp only
    rw [hfail a, ih (a + 1), isWindowsProcessImageRunning_trace, hw]
    simp [List.replicate_succ]

theorem opened_ne_launched (n : String) : ("Opened: " ++ n) ≠ ("Launched: " ++ n) := by
  intro h
  have hlen := congrArg String.length h
  rw [String.length_append, String.length_append] at hlen
  have h1 : ("Opened: " : String).length = 8 := rfl
  have h2 : ("Launched: " : String).length = 10 := rfl
  rw [h1, h2] at hlen
  omega

/-- C10: on Windows, when every `tasklist` invocation fails (nonzero exit
status, or empty or whitespace-only output), the verifier returns false
after exactly 6 attempts, so a successfully spawned no-argument executable
is still followed by the shell-open fallback, and the final result is the
fallback outcome, never the spawn success message. -/
theorem c10_tasklist_failure_fallback (env : Env) (item : LauncherItem) (p : String)
    (stat : FileStat)
    (hwin : env.platformWin32 = true)
    (hurl : isHttpUrlTarget (jsTrim item.target) = false)
    (habs : computeAbsoluteTarget env (jsTrim item.target) = some p)
    (hstat : env.fsys p = some stat)
    (hdir : stat.isDirectory = false)
    (hfile : stat.isFile = true)
    (hargs : normalizeArgs item.args = [])
    (hext : EXECUTABLE_EXTENSIONS.contains (strLower (pathExtname env.platformWin32 p)) = true)
    (hwd : workingDirCandidateTruthy item = true →
      env.existsSync (effectiveWorkingDir env item (some p)) = true)
    (hspawn : env.spawnOutcome p [] (effectiveWorkingDir env item (some p)) false = .ok ())
    (htl : ∀ a, env.tasklistStatus (pathBasename env.platformWin32 p) a ≠ some 0 ∨
      jsTrim (env.tasklistStdout (pathBasename env.platformWin32 p) a) = "") :
    (verifyProcessLaunch env (pathBasename env.platformWin32 p)).1 = false ∧
    tasklistCallCount (launchItem env item).2 = 6 ∧
    openedPaths (launchItem env item).2 = [p] ∧
    (env.openPath p = "" → (launchItem env item).1 = .ok ("Opened: " ++ item.name)) ∧
    (env.openPath p ≠ "" → (launchItem env item).1 =
      launchError "TARGET_LAUNCH_FAILED"
        ("Failed to open path for \x27" ++ item.name ++ "\x27.") (some (env.openPath p))) ∧
    (launchItem env item).1 ≠ .ok ("Launched: " ++ item.name) := by
  have hfail : ∀ a, (isWindowsProcessImageRunning env (pathBasename env.platformWin32 p) a).1 =
      false :=
    fun a => isRunning_false_of_tasklist_failure env _ a hwin (htl a)
  have hverify : verifyProcessLaunch env (pathBasename env.platformWin32 p) =
      (false, List.replicate 6 (Event.tasklistQuery (pathBasename env.platformWin32 p))) := by
    unfold verifyProcessLaunch
    rw [if_neg (by rw [hwin]; simp)]
    exact verifyAttempts_all_fail env _ hwin hfail 6 0
  have hv1 : (verifyProcessLaunch env (pathBasename env.platformWin32 p)).1 = false := by
    rw [hverify]
  have hextm : strLower (pathExtname env.platformWin32 p) ∈ EXECUTABLE_EXTENSIONS := by
    simpa using hext
  have hguard : ¬(workingDirCandidateTruthy item ∧
      ¬ env.existsSync (effectiveWorkingDir env item (some p))) := by
    rintro ⟨h1, h2⟩
    exact h2 (hwd h1)
  have hsp : spawnProcess env p [] (effectiveWorkingDir env item (some p)) item.name =
      (.ok ("Launched: " ++ item.name),
       [Event.spawnCall p [] (effectiveWorkingDir env item (some p)) false]) := by
    unfold spawnProcess
    rw [hspawn]
  have hli := launchItem_exec_noargs env item p stat hurl habs hstat hdir hfile hargs hextm
  have htail := launchTail_exec_spawn_ok env item (jsTrim item.target)
    (normalizeArgs item.args) p hguard hsp
  have htail2 : launchTail env item (jsTrim item.target) (normalizeArgs item.args)
      (some p) (some p) =
      ((openPathTarget env p item.name).1,
       (if workingDirCandidateTruthy item
        then [Event.existsCheck (effectiveWorkingDir env item (some p))] else []) ++
       [Event.spawnCall p [] (effectiveWorkingDir env item (some p)) false] ++
       (verifyProcessLaunch env (pathBasename env.platformWin32 p)).2 ++
       (openPathTarget env p item.name).2) := by
    rw [htail, if_neg (by rw [hv1]; simp)]
  have hres := resolver_trace_quiet env (jsTrim item.target)
  have hwdct : tasklistCallCount
      (if workingDirCandidateTruthy item
       then [Event.existsCheck (effectiveWorkingDir env item (some p))] else []) = 0 := by
    split <;> rfl
  have hwdtrP : openedPaths
      (if workingDirCandidateTruthy item
       then [Event.existsCheck (effectiveWorkingDir env item (some p))] else []) = [] := by
    split <;> rfl
  have hver := verify_trace_quiet env (pathBasename env.platformWin32 p)
  refine ⟨hv1, ?_, ?_, ?_, ?_, ?_⟩
  · rw [hli]
    dsimp only
    rw [htail2]
    dsimp only
    rw [tasklistCallCount_append, tasklistCallCount_append, hres.2.2.2,
      tasklistCallCount_append, tasklistCallCount_append, tasklistCallCount_append,
      hwdct, openPathTarget_trace, hverify]
    rfl
  · rw [hli]
    dsimp only
    rw [htail2]
    dsimp only
    rw [openedPaths_append, openedPaths_append, hres.2.1,
      openedPaths_append, openedPaths_append, openedPaths_append,
      hwdtrP, hver.2.1, openPathTarget_trace]
    rfl
  · intro hop
    rw [hli]
    dsimp only
    rw [htail2]
    dsimp only
    simp [openPathTarget, hop]
  · intro hop
    rw [hli]
    dsimp only
    rw [htail2]
    dsimp only
    simp [openPathTarget, hop]
  · rw [hli]
    dsimp only
    rw [htail2]
    dsimp only
    simp only [openPathTarget]
    split
    · exact fun hcontra => LaunchResult.noConfusion hcontra
    · intro hcontra
      exact opened_ne_launched item.name (LaunchResult.ok.inj hcontra)

/-- Witness for C10: the `tasklist` utility always exits with status 1, so
the benign executable launch ends in the shell-open fallback. -/
theorem c10_tasklist_failure_fallback_witness :
    (verifyProcessLaunch tasklistDownEnv "app.exe").1 = false ∧
    tasklistCallCount
        (launchItem tasklistDownEnv (witnessItem "C:\\tools\\app.exe" .missing none)).2 = 6 ∧
    (launchItem tasklistDownEnv (witnessItem "C:\\tools\\app.exe" .missing none)).1 =
      .ok ("Opened: " ++ "N") := by
  have h := c10_tasklist_failure_fallback tasklistDownEnv
    (witnessItem "C:\\tools\\app.exe" .missing none) "C:\\tools\\app.exe" ⟨false, true⟩
    rfl (by decide) rfl rfl rfl rfl rfl (by decide)
    (by intro hc; exact absurd hc (by decide)) rfl
    (by intro a; left; show (some 1 : Option Int) ≠ some 0; decide)
  exact ⟨h.1, h.2.1, h.2.2.2.1 rfl⟩

/-! ## C9: Command Resolver preferences and bare-command fallthrough -/

/-- A spawn attempt spawns its executable once, or twice on the ENOENT
retry, and nothing else. -/
theorem spawnProcess_trace_execs (env : Env) (executable : String) (args : List String)
    (cwd itemName : String) :
    spawnedExecutables (spawnProcess env executable args cwd itemName).2 = [executable] ∨
    spawnedExecutables (spawnProcess env executable args cwd itemName).2 =
      [executable, executable] := by
  unfold spawnProcess
  cases hsp : env.spawnOutcome executable args cwd false with
  | ok u => left; rfl
  | error e =>
    dsimp only
    split
    · cases hsp2 : env.spawnOutcome executable args cwd true with
      | ok u => right; rfl
      | error fe => right; rfl
    · split
      · left; rfl
      · left; rfl

/-- C9: with multiple existing `where.exe` candidates the resolver returns
the first whose path avoids the WindowsApps alias directory, and only when
all candidates pass through it the first candidate; when the search fails or
yields nothing it returns unresolved, and an unresolved bare command is
still passed literally to spawn instead of failing classification. -/
theorem c9_command_resolver (env : Env) :
    (∀ (command c : String) (cs : List String),
      env.platformWin32 = true →
      isBareCommandTarget command = true →
      env.whereStatus command = some 0 →
      env.whereStdout command ≠ "" →
      whereCandidates env command = c :: cs →
      (resolveWindowsCommandPath env command).1 =
        some (((c :: cs).find? (fun cand => !isWindowsAppsPath cand)).getD c) ∧
      ((∀ x ∈ c :: cs, isWindowsAppsPath x = true) →
        (resolveWindowsCommandPath env command).1 = some c) ∧
      (∀ r, (c :: cs).find? (fun cand => !isWindowsAppsPath cand) = some r →
        (resolveWindowsCommandPath env command).1 = some r ∧
        isWindowsAppsPath r = false ∧ r ∈ c :: cs)) ∧
    (∀ command : String,
      (env.whereStatus command ≠ some 0 ∨ env.whereStdout command = "" ∨
        whereCandidates env command = []) →
      (resolveWindowsCommandPath env command).1 = none) ∧
    (∀ item : LauncherItem,
      isHttpUrlTarget (jsTrim item.target) = false →
      pathIsAbsolute env.platformWin32 (jsTrim item.target) = false →
      (resolveWindowsCommandPath env (jsTrim item.target)).1 = none →
      (workingDirCandidateTruthy item = true →
        env.existsSync (effectiveWorkingDir env item none) = true) →
      spawnedExecutables (launchItem env item).2 ≠ [] ∧
      ∀ exe ∈ spawnedExecutables (launchItem env item).2, exe = jsTrim item.target) := by
  refine ⟨?_, ?_, ?_⟩
  · intro command c cs hw hb hst hne hcand
    have h1 : (resolveWindowsCommandPath env command).1 =
        some (((c :: cs).find? (fun cand => !isWindowsAppsPath cand)).getD c) := by
      unfold resolveWindowsCommandPath
      rw [if_neg (by simp [hw, hb])]
      rw [if_neg (by
        rintro (h | h)
        · exact h hst
        · exact hne h)]
      rw [hcand]
    refine ⟨h1, ?_, ?_⟩
    · intro hall
      have hnone : (c :: cs).find? (fun cand => !isWindowsAppsPath cand) = none := by
        rw [List.find?_eq_none]
        intro x hx
        rw [hall x hx]
        simp
      rw [h1, hnone]
      rfl
    · intro r hr
      refine ⟨by rw [h1, hr]; rfl, ?_, List.mem_of_find?_eq_some hr⟩
      have := List.find?_some hr
      simpa using this
  · intro command h
    unfold resolveWindowsCommandPath
    by_cases hpb : (!env.platformWin32 || !isBareCommandTarget command) = true
    · rw [if_pos hpb]
    · rw [if_neg hpb]
      rcases h with h | h | h
      · rw [if_pos (Or.inl h)]
      · rw [if_pos (Or.inr h)]
      · by_cases hcond : env.whereStatus command ≠ some 0 ∨ env.whereStdout command = ""
        · rw [if_pos hcond]
        · rw [if_neg hcond, h]
  · intro item hurl hnabs hres hwd
    have hcompute : computeAbsoluteTarget env (jsTrim item.target) = none := by
      unfold computeAbsoluteTarget
      rw [if_neg (by rw [hnabs]; simp), hres]
    have hguard : ¬(workingDirCandidateTruthy item ∧
        ¬ env.existsSync (effectiveWorkingDir env item none)) := by
      rintro ⟨h1, h2⟩
      exact h2 (hwd h1)
    have hli : launchItem env item =
        ((launchTail env item (jsTrim item.target) (normalizeArgs item.args) none none).1,
         (resolveWindowsCommandPath env (jsTrim item.target)).2 ++
         (launchTail env item (jsTrim item.target) (normalizeArgs item.args) none none).2) := by
      simp [launchItem, hurl, hcompute]
    have htail : launchTail env item (jsTrim item.target) (normalizeArgs item.args) none none =
        ((spawnProcess env (jsTrim item.target) (normalizeArgs item.args)
           (effectiveWorkingDir env item none) item.name).1,
         (if workingDirCandidateTruthy item
          then [Event.existsCheck (effectiveWorkingDir env item none)] else []) ++
         (spawnProcess env (jsTrim item.target) (normalizeArgs item.args)
           (effectiveWorkingDir env item none) item.name).2) := by
      unfold launchTail
      dsimp only
      rw [if_neg hguard]
      rfl
    have hresq := resolver_trace_quiet env (jsTrim item.target)
    have hwdtr : spawnedExecutables
        (if workingDirCandidateTruthy item
         then [Event.existsCheck (effectiveWorkingDir env item none)] else []) = [] := by
      split <;> rfl
    have hspawned : spawnedExecutables (launchItem env item).2 =
        spawnedExecutables (spawnProcess env (jsTrim item.target) (normalizeArgs item.args)
          (effectiveWorkingDir env item none) item.name).2 := by
      rw [hli]
      dsimp only
      rw [htail]
      dsimp only
      rw [spawnedExecutables_append, hresq.1, List.nil_append,
        spawnedExecutables_append, hwdtr, List.nil_append]
    rcases spawnProcess_trace_execs env (jsTrim item.target) (normalizeArgs item.args)
      (effectiveWorkingDir env item none) item.name with h | h <;>
      rw [hspawned, h]
    · exact ⟨by simp, by simp⟩
    · exact ⟨by simp, by simp⟩

/-- Witness for C9: two `where.exe` hits with the WindowsApps alias first,
and one unresolvable bare command that is spawned literally. -/
theorem c9_command_resolver_witness :
    (resolveWindowsCommandPath whereTwoHitsEnv "notepad").1 = some "C:\\tools\\app.exe" ∧
    (resolveWindowsCommandPath witnessEnv "mytool").1 = none ∧
    spawnedExecutables (launchItem witnessEnv (witnessItem "mytool" .missing none)).2 ≠ [] := by
  obtain ⟨ha, hb, hc⟩ := c9_command_resolver whereTwoHitsEnv
  obtain ⟨_, hb2, hc2⟩ := c9_command_resolver witnessEnv
  refine ⟨?_, ?_, ?_⟩
  · exact ((ha "notepad" "C:\\Program Files\\WindowsApps\\np.exe" ["C:\\tools\\app.exe"]
      rfl (by decide) rfl (by decide) (by decide)).2.2 "C:\\tools\\app.exe" (by decide)).1
  · exact hb2 "mytool" (Or.inl (by show (some 1 : Option Int) ≠ some 0; decide))
  · exact (hc2 (witnessItem "mytool" .missing none) (by decide) (by decide) rfl
      (by intro hcx; exact absurd hcx (by decide))).1

end PapaShortcut
